import Mathlib

/-!
Shallow embedding of the CHub character-search extension (src/index.js).

The embedding models the search-and-pagination-and-batch-fetch pipeline:
HTTP responses are records with an `ok` status and a string body; the
network is a pair of response functions (primary / backup endpoint); UI
rendering calls (`updateCharacterListInView`, DOM writes) are treated as
no-ops on the modelled state, matching the scoping of the spec: DOM glue is
out of scope.  Module-level mutable variables (`currentPage`,
`hasMoreResults`, `isLoading`, `chubCharacters`) become fields of an
explicit `SearchState` threaded through the operations.
-/

set_option autoImplicit false
set_option linter.unusedVariables false

namespace ChubSearch

universe u

/-- An HTTP response as the code observes it: `ok` mirrors `Response.ok`
(status in the 200 range) and `body` stands for the payload
(`response.blob()` contents). -/
structure HttpResponse where
  ok : Bool
  body : String
deriving DecidableEq

/-- The two per-item endpoints of `getCharacter`: the primary download
endpoint (POST `API_ENDPOINT_DOWNLOAD` with a `fullPath`) and the backup
avatar endpoint (GET `https://avatars.charhub.io/avatars/{fullPath}/avatar.webp`).
Each is modelled as a function from the `fullPath` to the response it
yields. -/
structure FetchEnv where
  primary : String → HttpResponse
  backup : String → HttpResponse

/-- Embedding of `getCharacter` (src/index.js lines 620-651): POST to the
primary endpoint; if the response is not ok, issue the backup GET; the blob
of whichever response was obtained last is returned, with no status check
on the backup response.  The first component records whether the backup
request was issued. -/
def getCharacter (env : FetchEnv) (fullPath : String) : Bool × String :=
  let response := env.primary fullPath
  if !response.ok then
    let response2 := env.backup fullPath
    (true, response2.body)
  else
    (false, response.body)

/-- A raw search-result record (`searchData.nodes` member). `tagline` is
`none` when the field is absent; the empty string is also falsy in the
JS fallback `node.tagline || "Description here..."`. -/
structure CatalogNode where
  fullPath : String
  name : String
  tagline : Option String
  topics : List String
deriving DecidableEq

/-- A display-ready entity as assembled by the per-node closure of
`processCharacters` (src/index.js lines 680-690).  `url` stands for the object URL of
the fetched blob (we keep the blob contents). -/
structure DisplayEntity where
  url : String
  description : String
  name : String
  fullPath : String
  tags : List String
  author : String
deriving DecidableEq

/-- The per-node assembly inside `processCharacters`: fetch the blob via
`getCharacter` and build the entity.  `node.tagline || "Description here..."`
falls back on an absent or empty tagline; `author` is
the part of `node.fullPath` before the first slash. -/
def mkEntity (env : FetchEnv) (node : CatalogNode) : DisplayEntity :=
  let blob := (getCharacter env node.fullPath).2
  { url := blob
    description :=
      match node.tagline with
      | none => "Description here..."
      | some t => if t = "" then "Description here..." else t
    name := node.name
    fullPath := node.fullPath
    tags := node.topics
    author := ((node.fullPath.splitOn "/").headD "") }

/-- `const batchSize = 20` in `processCharacters`. -/
def batchSize : Nat := 20

/-- The batch-partition loop of `processCharacters`
(`for (let i = 0; i < nodes.length; i += batchSize) batches.push(nodes.slice(i, i + batchSize))`). -/
def toBatches {α : Type u} : List α → List (List α)
  | [] => []
  | a :: rest =>
    (a :: rest).take batchSize :: toBatches ((a :: rest).drop batchSize)
termination_by l => l.length
decreasing_by
  simp [batchSize, List.length_drop]
  omega

/-- Result of a `processCharacters` run: the final accumulated entity list
and the sequence of arguments passed to `updateCharacterListInView` after
each batch (the incremental deliveries). -/
structure ProcessResult where
  processed : List DisplayEntity
  deliveries : List (List DisplayEntity)
deriving DecidableEq

/-- The sequential batch loop of `processCharacters` (src/index.js lines
679-698): each batch is mapped through the per-node fetch, the results are
appended to the accumulator, and — when the character-list container is
present — the accumulated list so far is delivered to the view. -/
def processBatches (env : FetchEnv) (hasContainer : Bool) :
    List DisplayEntity → List (List CatalogNode) → ProcessResult
  | acc, [] => ⟨acc, []⟩
  | acc, b :: bs =>
    let results := b.map (mkEntity env)
    let acc2 := acc ++ results
    let rest := processBatches env hasContainer acc2 bs
    ⟨rest.processed, (if hasContainer then [acc2] else []) ++ rest.deliveries⟩

/-- Embedding of `processCharacters` (src/index.js lines 671-700). -/
def processCharacters (env : FetchEnv) (hasContainer : Bool)
    (nodes : List CatalogNode) : ProcessResult :=
  processBatches env hasContainer [] (toBatches nodes)

/-- Embedding of the state mutation of `fetchCharactersBySearch`
(src/index.js lines 199-214) on the module variable `chubCharacters`:
the previous value `chub` is overwritten with `[]`, then — unless the
returned node list is empty — with the processed entities.  The result is
`(new chubCharacters, returned list)`; both are the same value in the
source. -/
def fetchCharactersBySearch (env : FetchEnv) (hasContainer : Bool)
    (nodes : List CatalogNode) (chub : List DisplayEntity) :
    List DisplayEntity × List DisplayEntity :=
  let cleared : List DisplayEntity := []
  if nodes.length = 0 then
    (cleared, cleared)
  else
    let processed := (processCharacters env hasContainer nodes).processed
    (processed, processed)

/-- The module-level mutable search state of src/index.js
(`currentPage`, `hasMoreResults`, `isLoading`, `chubCharacters`). -/
structure SearchState where
  currentPage : Nat
  hasMoreResults : Bool
  isLoading : Bool
  chubCharacters : List DisplayEntity
deriving DecidableEq

/-- Outcome of the awaited `searchCharacters({...options, page})` call as
seen by `executeCharacterSearch`: either it resolves with the character
list (which `fetchCharactersBySearch` has also stored into
`chubCharacters`), or it throws.  A throw before the `chubCharacters = []`
reset (transport failure in the search fetch) leaves `chubCharacters`
untouched; a throw after it (failure inside `processCharacters`) leaves it
cleared — the flag `duringEnrichment` distinguishes the two. -/
inductive SearchOutcome where
  | success (cs : List DisplayEntity)
  | failure (duringEnrichment : Bool)
deriving DecidableEq

/-- Result of one invocation of a search entry point: the final state,
whether a search network request was actually issued, and whether the
invocation left an uncaught rejection. -/
structure ExecResult where
  state : SearchState
  searchIssued : Bool
  threw : Bool
deriving DecidableEq

/-- Embedding of `executeCharacterSearch` (src/index.js lines 251-274).
`pageResult` gives the outcome of the underlying search for a page
number.  UI calls (`updateCharacterListInView`, the no-characters DOM
write) are no-ops on the modelled state.  Note that the trailing
`isLoading = false` is only reached when the awaited search resolves. -/
def executeCharacterSearch (findCount : Nat) (append : Bool)
    (pageResult : Nat → SearchOutcome) (s : SearchState) : ExecResult :=
  let s := if !append then { s with currentPage := 1, hasMoreResults := true } else s
  if !s.hasMoreResults then ⟨s, false, false⟩
  else
    match pageResult s.currentPage with
    | .failure duringEnrichment =>
      ⟨if duringEnrichment then { s with chubCharacters := [] } else s, true, true⟩
    | .success cs =>
      let s := { s with chubCharacters := cs }
      if 0 < cs.length then
        ⟨{ s with hasMoreResults := decide (cs.length = findCount),
                   isLoading := false }, true, false⟩
      else
        ⟨{ s with hasMoreResults := false, isLoading := false }, true, false⟩

/-- Embedding of the state-relevant tail of `handleSearch`
(src/index.js lines 509-522): it unconditionally resets
`currentPage`, `hasMoreResults` and `isLoading` and then runs a fresh
(non-append) `executeCharacterSearch` — with no `isLoading` guard and no
`finally`.  The returned promise is not awaited, so a rejection stays in
`threw`. -/
def handleSearch (findCount : Nat) (pageResult : Nat → SearchOutcome)
    (s : SearchState) : ExecResult :=
  executeCharacterSearch findCount false pageResult
    { s with currentPage := 1, hasMoreResults := true, isLoading := false }

/-- Embedding of `executeCharacterSearchDebounced` (src/index.js lines
460-468): guarded by `isLoading`, sets the flag, runs a fresh search and
clears the flag in `.finally` (which re-raises any rejection). This
function is defined in the source but never attached to any event. -/
def executeCharacterSearchDebounced (findCount : Nat)
    (pageResult : Nat → SearchOutcome) (s : SearchState) : ExecResult :=
  if !s.isLoading then
    let r := executeCharacterSearch findCount false pageResult
      { s with isLoading := true }
    ⟨{ r.state with isLoading := false }, r.searchIssued, r.threw⟩
  else
    ⟨s, false, false⟩

/-- Embedding of the infinite-scroll handler (src/index.js lines 554-583):
gated by `isLoading` and `hasMoreResults`, and by the scroll position
(`nearBottom` models `bottomOffset < threshold`).  It sets `isLoading`,
advances `currentPage`, runs an append search, catches any error and
clears `isLoading` in `.finally`. -/
def scrollHandler (findCount : Nat) (pageResult : Nat → SearchOutcome)
    (nearBottom : Bool) (s : SearchState) : ExecResult :=
  if s.isLoading || !s.hasMoreResults then ⟨s, false, false⟩
  else if nearBottom then
    let s := { s with isLoading := true, currentPage := s.currentPage + 1 }
    let r := executeCharacterSearch findCount true pageResult s
    ⟨{ r.state with isLoading := false }, r.searchIssued, false⟩
  else
    ⟨s, false, false⟩

/-- JS `String.prototype.slice(0, n)` on our string model. -/
def sliceTo (n : Nat) (s : String) : String :=
  String.mk (s.data.take n)

/-- The two optional tag parameters of the built search query
(pre-URL-encoding values of `tags` and `exclude_tags`). -/
structure TagParams where
  tags : Option String
  exclude_tags : Option String
deriving DecidableEq

/-- Embedding of the tag-parameter construction in
`fetchCharactersBySearch` (src/index.js lines 184-197): filter out
zero-length entries; if any remain, join with a comma and slice to 100
characters, else omit the parameter. -/
def buildTagParams (includeTags excludeTags : List String) : TagParams :=
  let inc := includeTags.filter (fun tag => 0 < tag.length)
  let tagsParam :=
    if 0 < inc.length then some (sliceTo 100 (String.intercalate "," inc)) else none
  let exc := excludeTags.filter (fun tag => 0 < tag.length)
  let excludeParam :=
    if 0 < exc.length then some (sliceTo 100 (String.intercalate "," exc)) else none
  ⟨tagsParam, excludeParam⟩

/-- The comma-separated members of a string, used to state what "tag
members" a built `tags` / `exclude_tags` parameter value carries
(`"a,b" ↦ ["a", "b"]`, a trailing comma yields a final empty member). -/
def commaSplit : List Char → List (List Char)
  | [] => [[]]
  | c :: cs =>
    if c = ',' then
      [] :: commaSplit cs
    else
      match commaSplit cs with
      | [] => [[c]]
      | m :: ms => (c :: m) :: ms

/-- String-level view of `commaSplit`. -/
def commaMembers (s : String) : List String :=
  (commaSplit s.data).map String.mk

/-- A response of one of the two import endpoints as `downloadCharacter`
reads it: `ok` status, blob body, the `X-Custom-Content-Type` header and
the `Content-Disposition` header. -/
structure ImportResponse where
  ok : Bool
  blobBody : String
  customContentType : Option String
  contentDisposition : String
deriving DecidableEq

/-- Observable outcome of a `downloadCharacter` run. -/
inductive ImportOutcome where
  | importFailedNotice
  | ingested (fileName : String)
  | unknownTypeWarning
deriving DecidableEq

/-- Trace of a `downloadCharacter` run: whether the legacy endpoint was
POSTed, the outcome, and how many times `processDroppedFiles` (the host
ingestion callback) was invoked. -/
structure ImportRun where
  legacyPosted : Bool
  outcome : ImportOutcome
  ingestCalls : Nat
deriving DecidableEq

/-- The filename extraction of `downloadCharacter`:
the part of the Content-Disposition header behind `filename=`, with
double quotes removed. -/
def extractFileName (cd : String) : String :=
  ((cd.splitOn "filename=").getD 1 "").replace "\"" ""

/-- Embedding of `downloadCharacter` (src/index.js lines 69-107): POST to
the primary import endpoint; if that response is not ok, POST the same
payload to the legacy endpoint; if the final response is not ok, show the
import-failed notification and stop.  Otherwise read the blob and headers
and dispatch on the declared content type: `"character"` is handed to the
host ingestion callback, anything else yields a warning. -/
def downloadCharacter (primary legacy : ImportResponse) : ImportRun :=
  let legacyPosted := !primary.ok
  let request := if primary.ok then primary else legacy
  if request.ok then
    if request.customContentType = some "character" then
      ⟨legacyPosted, .ingested (extractFileName request.contentDisposition), 1⟩
    else
      ⟨legacyPosted, .unknownTypeWarning, 0⟩
  else
    ⟨legacyPosted, .importFailedNotice, 0⟩

/-! ### Helper lemmas about the batch partition and the batch loop -/

theorem toBatches_eq_cons {α : Type u} (l : List α) (h : l ≠ []) :
    toBatches l = l.take batchSize :: toBatches (l.drop batchSize) := by
  cases l with
  | nil => exact absurd rfl h
  | cons a rest => rw [toBatches]

theorem toBatches_join {α : Type u} : ∀ l : List α, (toBatches l).flatten = l
  | [] => by simp [toBatches]
  | a :: rest => by
    rw [toBatches]
    have ih := toBatches_join ((a :: rest).drop batchSize)
    simp only [List.flatten_cons, ih, List.take_append_drop]
termination_by l => l.length
decreasing_by
  simp [batchSize, List.length_drop]
  omega

theorem processBatches_processed (env : FetchEnv) (hc : Bool) :
    ∀ (bs : List (List CatalogNode)) (acc : List DisplayEntity),
      (processBatches env hc acc bs).processed = acc ++ bs.flatten.map (mkEntity env)
  | [], acc => by simp [processBatches]
  | b :: bs, acc => by
    have ih := processBatches_processed env hc bs (acc ++ b.map (mkEntity env))
    simp [processBatches, ih, List.map_append, List.append_assoc]

theorem processCharacters_processed (env : FetchEnv) (hc : Bool)
    (nodes : List CatalogNode) :
    (processCharacters env hc nodes).processed = nodes.map (mkEntity env) := by
  simp [processCharacters, processBatches_processed, toBatches_join]

theorem processBatches_nil (env : FetchEnv) (hc : Bool) (acc : List DisplayEntity) :
    processBatches env hc acc [] = ⟨acc, []⟩ := rfl

theorem processBatches_cons (env : FetchEnv) (hc : Bool) (acc : List DisplayEntity)
    (b : List CatalogNode) (bs : List (List CatalogNode)) :
    processBatches env hc acc (b :: bs)
      = ⟨(processBatches env hc (acc ++ b.map (mkEntity env)) bs).processed,
         (if hc then [acc ++ b.map (mkEntity env)] else [])
           ++ (processBatches env hc (acc ++ b.map (mkEntity env)) bs).deliveries⟩ := rfl

theorem processBatches_deliveries_mem (env : FetchEnv) :
    ∀ (bs : List (List CatalogNode)) (acc : List DisplayEntity), bs ≠ [] →
      (acc ++ bs.flatten.map (mkEntity env)) ∈ (processBatches env true acc bs).deliveries
  | [], _, h => absurd rfl h
  | [b], acc, _ => by
    simp [processBatches_cons, processBatches_nil]
  | b :: b2 :: bs, acc, _ => by
    have ih := processBatches_deliveries_mem env (b2 :: bs)
      (acc ++ b.map (mkEntity env)) (by simp)
    have e : acc ++ ((b :: b2 :: bs).flatten).map (mkEntity env)
        = (acc ++ b.map (mkEntity env)) ++ ((b2 :: bs).flatten).map (mkEntity env) := by
      simp [List.map_append, List.append_assoc]
    rw [e, processBatches_cons]
    exact List.mem_append_right _ ih

theorem toBatches_length45 {α : Type u} (l : List α) (h : l.length = 45) :
    toBatches l = [l.take 20, (l.drop 20).take 20, l.drop 40] := by
  have h1 : l ≠ [] := by
    intro e
    rw [e] at h
    simp at h
  have h2 : l.drop 20 ≠ [] := by
    intro e
    have e2 := congrArg List.length e
    simp [List.length_drop, h] at e2
  have h3 : l.drop 40 ≠ [] := by
    intro e
    have e2 := congrArg List.length e
    simp [List.length_drop, h] at e2
  rw [toBatches_eq_cons l h1]
  have d1 : l.drop batchSize = l.drop 20 := by rw [batchSize]
  rw [d1, toBatches_eq_cons _ h2]
  have d2 : (l.drop 20).drop batchSize = l.drop 40 := by
    rw [batchSize, List.drop_drop]
  rw [d2, toBatches_eq_cons _ h3]
  have d3 : (l.drop 40).drop batchSize = [] := by
    rw [batchSize]
    exact List.drop_eq_nil_of_le (by simp [List.length_drop, h])
  have t3 : (l.drop 40).take batchSize = l.drop 40 := by
    rw [batchSize]
    exact List.take_of_length_le (by simp [List.length_drop, h])
  rw [d3, t3, batchSize]
  simp [toBatches]

/-! ### Sample values used by witnesses and counterexamples -/

/-- A fetch environment in which both endpoints answer every path with a
failure status. -/
def envBothFail : FetchEnv :=
  ⟨fun _ => ⟨false, "primary-error"⟩, fun _ => ⟨false, "backup-error"⟩⟩

/-- A fetch environment in which the path `"bad/x"` fails on both the
primary and the backup endpoint while every other path succeeds. -/
def envOneBad : FetchEnv :=
  ⟨fun p => if p = "bad/x" then ⟨false, "p-err"⟩ else ⟨true, "p-ok"⟩,
   fun p => if p = "bad/x" then ⟨false, "b-err"⟩ else ⟨true, "b-ok"⟩⟩

/-- Three catalog nodes, the middle of which fails on both endpoints of
`envOneBad`. -/
def nodes3 : List CatalogNode :=
  [⟨"good/a", "A", none, []⟩,
   ⟨"bad/x", "X", some "t", []⟩,
   ⟨"good/b", "B", some "", ["tag"]⟩]

/-! ### Claims -/

/-- Claim C9: whenever the primary download POST responds unsuccessfully,
`getCharacter` issues the backup GET and resolves with the blob of the
backup response without ever inspecting the status of that response —
the result is the backup body for every backup environment, failing or
not, and no error is signalled. -/
theorem C9_backup_blob_unchecked (env : FetchEnv) (fullPath : String)
    (h : (env.primary fullPath).ok = false) :
    getCharacter env fullPath = (true, (env.backup fullPath).body) := by
  simp [getCharacter, h]

/-- Witness for C9 at an environment where both endpoints respond with
failure statuses: `getCharacter` still resolves with the backup body. -/
theorem C9_backup_blob_unchecked_witness :
    (envBothFail.primary "a/b").ok = false
      ∧ getCharacter envBothFail "a/b" = (true, "backup-error") :=
  ⟨rfl, C9_backup_blob_unchecked envBothFail "a/b" rfl⟩

/-- Claim C10: every `fetchCharactersBySearch` call rebuilds the
module-level `chubCharacters` from the newly returned page only: the
result is independent of the previously accumulated value, so after an
append (load-more) search the in-memory list holds just the entities of
the newest page, never the union of pages. -/
theorem C10_chub_rebuilt_from_page_only (env : FetchEnv) (hc : Bool)
    (nodes : List CatalogNode) (prev prev2 : List DisplayEntity) :
    fetchCharactersBySearch env hc nodes prev
        = fetchCharactersBySearch env hc nodes prev2
      ∧ (fetchCharactersBySearch env hc nodes prev).1
          = (if nodes.length = 0 then [] else nodes.map (mkEntity env)) := by
  refine ⟨rfl, ?_⟩
  by_cases h : nodes.length = 0 <;>
    simp [fetchCharactersBySearch, h, processCharacters_processed]

/-- Claim C1: a node whose per-item fetch fails (non-ok response) on both
the primary download endpoint and the backup avatar endpoint does not
prevent the remaining nodes of its batch: every input node is still
assembled into a `DisplayEntity`, the accumulated result covers the whole
input in order, the complete list is emitted to the view, and the overall
search still returns all entities. -/
theorem C1_failing_node_isolated (env : FetchEnv) (hc : Bool)
    (nodes : List CatalogNode) (prev : List DisplayEntity)
    (h : ∃ node ∈ nodes, (env.primary node.fullPath).ok = false
          ∧ (env.backup node.fullPath).ok = false) :
    (processCharacters env hc nodes).processed = nodes.map (mkEntity env)
      ∧ (processCharacters env hc nodes).processed.length = nodes.length
      ∧ nodes.map (mkEntity env) ∈ (processCharacters env true nodes).deliveries
      ∧ (fetchCharactersBySearch env hc nodes prev).2 = nodes.map (mkEntity env) := by
  obtain ⟨node, hmem, -⟩ := h
  have hne : nodes ≠ [] := by
    rintro rfl
    exact absurd hmem (List.not_mem_nil node)
  refine ⟨processCharacters_processed env hc nodes, ?_, ?_, ?_⟩
  · rw [processCharacters_processed]
    simp
  · have hb : toBatches nodes ≠ [] := by
      intro e
      have hj := toBatches_join nodes
      rw [e] at hj
      exact hne hj.symm
    have hm := processBatches_deliveries_mem env (toBatches nodes) [] hb
    rw [toBatches_join] at hm
    simpa [processCharacters] using hm
  · simp [fetchCharactersBySearch, List.length_eq_zero, hne,
      processCharacters_processed]

/-- Witness for C1: in `envOneBad` the node `"bad/x"` of `nodes3` fails on
both endpoints, yet all three nodes are processed, assembled and
delivered. -/
theorem C1_failing_node_isolated_witness :
    (∃ node ∈ nodes3, (envOneBad.primary node.fullPath).ok = false
        ∧ (envOneBad.backup node.fullPath).ok = false)
      ∧ ((processCharacters envOneBad true nodes3).processed
            = nodes3.map (mkEntity envOneBad)
          ∧ (processCharacters envOneBad true nodes3).processed.length = nodes3.length
          ∧ nodes3.map (mkEntity envOneBad)
              ∈ (processCharacters envOneBad true nodes3).deliveries
          ∧ (fetchCharactersBySearch envOneBad true nodes3 []).2
              = nodes3.map (mkEntity envOneBad)) :=
  ⟨by decide, C1_failing_node_isolated envOneBad true nodes3 [] (by decide)⟩

/-- Claim C7: `downloadCharacter` POSTs to the legacy import endpoint
exactly when the primary response is unsuccessful; if both responses fail
it signals the import-failed notification and never invokes the host
ingestion callback; on a successful response declaring content type
`"character"` it invokes the callback exactly once (in particular for a
failing primary and a succeeding legacy response); any other declared
content type yields the non-fatal unknown-type warning instead of
ingestion. -/
theorem C7_import_fallback_and_ingestion (p l : ImportResponse) :
    (downloadCharacter p l).legacyPosted = !p.ok
      ∧ ((downloadCharacter p l).outcome = ImportOutcome.importFailedNotice
          ↔ (p.ok = false ∧ l.ok = false))
      ∧ ((downloadCharacter p l).ingestCalls = 1
          ↔ ((if p.ok then p else l).ok = true
              ∧ (if p.ok then p else l).customContentType = some "character"))
      ∧ (downloadCharacter p l).ingestCalls ≤ 1
      ∧ ((downloadCharacter p l).outcome = ImportOutcome.unknownTypeWarning
          ↔ ((if p.ok then p else l).ok = true
              ∧ (if p.ok then p else l).customContentType ≠ some "character"))
      ∧ (downloadCharacter ⟨false, "", none, ""⟩
            ⟨true, "payload", some "character", "filename=card.png"⟩).ingestCalls = 1
      ∧ (downloadCharacter ⟨false, "", none, ""⟩
            ⟨true, "payload", some "character", "filename=card.png"⟩).legacyPosted
          = true := by
  obtain ⟨pok, pb, pc, pd⟩ := p
  obtain ⟨lok, lb, lc, ld⟩ := l
  refine ⟨?_, ?_, ?_, ?_, ?_, rfl, rfl⟩ <;>
    cases pok <;> cases lok <;>
      simp only [downloadCharacter] <;> split_ifs <;> simp_all

/-- Witness for C7 at the 500/200 scenario of the claim: primary fails,
legacy succeeds with declared type character — the legacy endpoint is
POSTed and ingestion happens exactly once. -/
theorem C7_import_fallback_and_ingestion_witness :
    (downloadCharacter ⟨false, "err", none, ""⟩
        ⟨true, "payload", some "character", "filename=card.png"⟩).legacyPosted
      = true :=
  (C7_import_fallback_and_ingestion ⟨false, "err", none, ""⟩
    ⟨true, "payload", some "character", "filename=card.png"⟩).1

/-- A sample display entity. -/
def entA : DisplayEntity := ⟨"u", "d", "n", "f", [], "a"⟩

/-- A second, distinct sample display entity. -/
def entB : DisplayEntity := ⟨"u2", "d2", "n2", "f2", [], "a2"⟩

/-- A page result of exactly 11 entities for every page. -/
def prEleven : Nat → SearchOutcome := fun _ => .success (List.replicate 11 entA)

/-- A page result of exactly 10 entities for every page. -/
def prTen : Nat → SearchOutcome := fun _ => .success (List.replicate 10 entA)

/-- A page result of a single entity for every page. -/
def prOne : Nat → SearchOutcome := fun _ => .success [entB]

/-- Counterexample to claim C2 as stated: with `findCount = 10`, a page of
11 results leaves `hasMoreResults = false` although 11 is not strictly
fewer than 10, so "false iff strictly fewer than findCount" fails. -/
theorem C2_hasMoreResults_counterexample :
    (executeCharacterSearch 10 false prEleven
        ⟨1, true, false, []⟩).state.hasMoreResults = false
      ∧ ¬ ((List.replicate 11 entA).length < 10) := by
  decide

/-- Claim C2 (amended): after a search page resolves with list `cs`,
`hasMoreResults` is true iff the page returned a positive number of
results exactly equal to `findCount`; it is false whenever the count
differs from `findCount` — strictly fewer (including zero) or strictly
more.  With `findCount = 10`: exactly 10 results leave it true, 9 or
fewer set it false. -/
theorem C2_hasMoreResults_amended (findCount : Nat) (append : Bool)
    (pageResult : Nat → SearchOutcome) (s : SearchState)
    (cs : List DisplayEntity)
    (hguard : append = false ∨ s.hasMoreResults = true)
    (hpage : pageResult (if append then s.currentPage else 1) = .success cs) :
    (executeCharacterSearch findCount append pageResult s).state.hasMoreResults
      = (decide (cs.length = findCount) && decide (0 < cs.length)) := by
  cases append <;>
    rcases hguard with hg | hg <;>
      rcases s with ⟨cp, hMR, iL, cc⟩ <;>
        simp_all [executeCharacterSearch] <;>
          rcases cs with _ | ⟨c, cs⟩ <;> simp_all

/-- Witness for C2 (amended): a fresh search whose page resolves with
exactly 10 entities under `findCount = 10` leaves `hasMoreResults`
true. -/
theorem C2_hasMoreResults_amended_witness :
    prTen 1 = SearchOutcome.success (List.replicate 10 entA)
      ∧ (executeCharacterSearch 10 false prTen
            ⟨1, true, false, []⟩).state.hasMoreResults
          = (decide ((List.replicate 10 entA).length = 10)
              && decide (0 < (List.replicate 10 entA).length)) :=
  ⟨rfl, C2_hasMoreResults_amended 10 false prTen ⟨1, true, false, []⟩
    (List.replicate 10 entA) (Or.inl rfl) rfl⟩

/-- Claim C3: every search entry point of the source leaves `isLoading`
false on every exit path, also when the underlying fetch or enrichment
throws: `handleSearch` ends with `isLoading = false` unconditionally, and
the scroll handler and the debounced executor either end with
`isLoading = false` or are the guarded no-op that leaves the state
untouched — no error can leave `isLoading` permanently true. -/
theorem C3_isLoading_always_cleared (findCount : Nat)
    (pageResult : Nat → SearchOutcome) (nearBottom : Bool) (s : SearchState) :
    (handleSearch findCount pageResult s).state.isLoading = false
      ∧ ((scrollHandler findCount pageResult nearBottom s).state.isLoading = false
          ∨ scrollHandler findCount pageResult nearBottom s = ⟨s, false, false⟩)
      ∧ ((executeCharacterSearchDebounced findCount pageResult s).state.isLoading
            = false
          ∨ executeCharacterSearchDebounced findCount pageResult s
              = ⟨s, false, false⟩) := by
  rcases s with ⟨cp, hMR, iL, cc⟩
  refine ⟨?_, ?_, ?_⟩
  · cases hpr : pageResult 1 with
    | success cs =>
      rcases cs with _ | ⟨c, cs⟩ <;>
        simp [handleSearch, executeCharacterSearch, hpr]
    | failure dE =>
      cases dE <;> simp [handleSearch, executeCharacterSearch, hpr]
  · cases iL <;> cases hMR <;> cases nearBottom <;>
      first
        | (right; rfl)
        | (left; rfl)
  · cases iL
    · left; rfl
    · right; rfl

/-- Counterexample to claim C4 as stated: while a search is in flight
(`isLoading = true`), a second fresh search through `handleSearch` is NOT
ignored — it issues a network request and replaces the accumulated entity
set. -/
theorem C4_second_search_not_ignored :
    ((⟨3, false, true, [entA]⟩ : SearchState).isLoading = true)
      ∧ (handleSearch 10 prOne ⟨3, false, true, [entA]⟩).searchIssued = true
      ∧ (handleSearch 10 prOne ⟨3, false, true, [entA]⟩).state.chubCharacters
          ≠ [entA] := by
  decide

/-- Claim C4 (amended): while `isLoading` is true, a scroll-triggered
load-more and the (unused) debounced executor ignore the request as a
no-op — state unchanged, no request issued; but a fresh search through
`handleSearch` is not guarded: it always issues a search request. -/
theorem C4_inflight_guard_amended (findCount : Nat)
    (pageResult : Nat → SearchOutcome) (nearBottom : Bool) (s : SearchState)
    (h : s.isLoading = true) :
    scrollHandler findCount pageResult nearBottom s = ⟨s, false, false⟩
      ∧ executeCharacterSearchDebounced findCount pageResult s = ⟨s, false, false⟩
      ∧ (handleSearch findCount pageResult s).searchIssued = true := by
  refine ⟨?_, ?_, ?_⟩
  · simp [scrollHandler, h]
  · simp [executeCharacterSearchDebounced, h]
  · cases hpr : pageResult 1 with
    | success cs =>
      rcases cs with _ | ⟨c, cs⟩ <;>
        simp [handleSearch, executeCharacterSearch, hpr]
    | failure dE =>
      simp [handleSearch, executeCharacterSearch, hpr]

/-- Witness for C4 (amended) at a concrete in-flight state. -/
theorem C4_inflight_guard_amended_witness :
    ((⟨2, true, true, []⟩ : SearchState).isLoading = true)
      ∧ (scrollHandler 10 prOne true ⟨2, true, true, []⟩
            = ⟨⟨2, true, true, []⟩, false, false⟩
          ∧ executeCharacterSearchDebounced 10 prOne ⟨2, true, true, []⟩
              = ⟨⟨2, true, true, []⟩, false, false⟩
          ∧ (handleSearch 10 prOne ⟨2, true, true, []⟩).searchIssued = true) :=
  ⟨rfl, C4_inflight_guard_amended 10 prOne true ⟨2, true, true, []⟩ rfl⟩

/-- Claim C8: a non-append `executeCharacterSearch` behaves exactly as if
started from pagination state `currentPage = 1, hasMoreResults = true`
and always issues the search; and whenever `hasMoreResults` is false on
an append call, it returns immediately — no search issued, no state
modified, nothing thrown. -/
theorem C8_reset_and_exhausted_noop (findCount : Nat)
    (pageResult : Nat → SearchOutcome) (s s2 : SearchState)
    (h : s.hasMoreResults = false) :
    executeCharacterSearch findCount true pageResult s = ⟨s, false, false⟩
      ∧ executeCharacterSearch findCount false pageResult s2
          = executeCharacterSearch findCount false pageResult
              ⟨1, true, s2.isLoading, s2.chubCharacters⟩
      ∧ (executeCharacterSearch findCount false pageResult s2).searchIssued
          = true := by
  refine ⟨?_, rfl, ?_⟩
  · simp [executeCharacterSearch, h]
  · cases hpr : pageResult 1 with
    | success cs =>
      rcases cs with _ | ⟨c, cs⟩ <;>
        simp [executeCharacterSearch, hpr]
    | failure dE =>
      simp [executeCharacterSearch, hpr]

/-- Witness for C8 at a concrete exhausted state. -/
theorem C8_reset_and_exhausted_noop_witness :
    ((⟨2, false, false, []⟩ : SearchState).hasMoreResults = false)
      ∧ (executeCharacterSearch 10 true prOne ⟨2, false, false, []⟩
            = ⟨⟨2, false, false, []⟩, false, false⟩
          ∧ executeCharacterSearch 10 false prOne ⟨7, false, true, [entA]⟩
              = executeCharacterSearch 10 false prOne ⟨1, true, true, [entA]⟩
          ∧ (executeCharacterSearch 10 false prOne
                ⟨7, false, true, [entA]⟩).searchIssued = true) :=
  ⟨rfl, C8_reset_and_exhausted_noop 10 prOne ⟨2, false, false, []⟩
    ⟨7, false, true, [entA]⟩ rfl⟩

/-- A JS slice to `n` characters is at most `n` characters long. -/
theorem sliceTo_length_le (n : Nat) (s : String) : (sliceTo n s).length ≤ n := by
  have e : (sliceTo n s).length = (s.data.take n).length := rfl
  rw [e, List.length_take]
  exact Nat.min_le_left _ _

/-- A 99-character tag: joined with a second tag it exceeds the
100-character bound and the slice cuts directly behind the comma. -/
def longTag : String := String.mk (List.replicate 99 'a')

/-- Counterexample to claim C6 as stated: for the include list
`[longTag, "bb"]` — both entries non-empty — the built `tags` value is
within the 100-character bound but its comma-separated members contain
the empty string: the truncation cut right behind the comma. -/
theorem C6_tag_params_counterexample :
    longTag ≠ ""
      ∧ "bb" ≠ ""
      ∧ ((buildTagParams [longTag, "bb"] []).tags.getD "").length ≤ 100
      ∧ "" ∈ commaMembers ((buildTagParams [longTag, "bb"] []).tags.getD "") := by
  decide

/-- Claim C6 (amended): the query builder filters empty-string entries out
of `includeTags`/`excludeTags`; a parameter is omitted exactly when every
entry of its list is empty, and otherwise carries the comma-join of the
filtered list truncated to at most 100 characters pre-encoding — but the
truncation can cut directly behind a comma, so the built value may still
carry an empty comma-separated member. -/
theorem C6_tag_params_amended (includeTags excludeTags : List String) :
    (∀ s, (buildTagParams includeTags excludeTags).tags = some s
        → s.length ≤ 100)
      ∧ (∀ s, (buildTagParams includeTags excludeTags).exclude_tags = some s
          → s.length ≤ 100)
      ∧ ((buildTagParams includeTags excludeTags).tags = none
          ↔ ∀ t ∈ includeTags, t.length = 0)
      ∧ ((buildTagParams includeTags excludeTags).exclude_tags = none
          ↔ ∀ t ∈ excludeTags, t.length = 0)
      ∧ ((buildTagParams includeTags excludeTags).tags ≠ none
          → (buildTagParams includeTags excludeTags).tags
              = some (sliceTo 100 (String.intercalate ","
                  (includeTags.filter (fun tag => 0 < tag.length)))))
      ∧ ((buildTagParams includeTags excludeTags).exclude_tags ≠ none
          → (buildTagParams includeTags excludeTags).exclude_tags
              = some (sliceTo 100 (String.intercalate ","
                  (excludeTags.filter (fun tag => 0 < tag.length))))) := by
  refine ⟨?_, ?_, ?_, ?_, ?_, ?_⟩ <;>
    by_cases hi : 0 < (includeTags.filter (fun tag => 0 < tag.length)).length <;>
      by_cases he : 0 < (excludeTags.filter (fun tag => 0 < tag.length)).length <;>
        simp_all [buildTagParams, sliceTo_length_le, List.length_pos,
          List.filter_eq_nil_iff]

/-- Witness for C6 (amended) at the round-trip example of the spec: include
`["fantasy", ""]`, exclude `[]`. -/
theorem C6_tag_params_amended_witness :
    (∀ s, (buildTagParams ["fantasy", ""] []).tags = some s → s.length ≤ 100)
      ∧ ((buildTagParams ["fantasy", ""] []).exclude_tags = none
          ↔ ∀ t ∈ ([] : List String), t.length = 0) :=
  ⟨(C6_tag_params_amended ["fantasy", ""] []).1,
   (C6_tag_params_amended ["fantasy", ""] []).2.2.2.1⟩

/-- Every batch produced by the partition loop is non-empty and holds at
most `batchSize` elements. -/
theorem toBatches_mem_size {α : Type u} :
    ∀ (l : List α), ∀ b ∈ toBatches l, b ≠ [] ∧ b.length ≤ batchSize
  | [] => by simp [toBatches]
  | a :: rest => by
    intro b hb
    rw [toBatches_eq_cons _ (List.cons_ne_nil a rest)] at hb
    rcases List.mem_cons.mp hb with hEq | hTail
    · subst hEq
      refine ⟨?_, ?_⟩
      · have hpos : 0 < ((a :: rest).take batchSize).length := by
          rw [List.length_take]
          simp [batchSize]
        exact List.length_pos.mp hpos
      · rw [List.length_take]
        exact Nat.min_le_left _ _
    · exact toBatches_mem_size ((a :: rest).drop batchSize) b hTail
termination_by l => l.length
decreasing_by
  simp [batchSize, List.length_drop]
  omega

/-- Every batch other than the last one is exactly `batchSize` long. -/
theorem toBatches_getD_length {α : Type u} :
    ∀ (l : List α) (k : Nat), k + 1 < (toBatches l).length →
      ((toBatches l).getD k []).length = batchSize
  | [], k, h => by simp [toBatches] at h
  | a :: rest, 0, h => by
    rw [toBatches_eq_cons _ (List.cons_ne_nil a rest)] at h ⊢
    simp only [List.length_cons] at h
    have hd : (a :: rest).drop batchSize ≠ [] := by
      intro e
      rw [e] at h
      simp [toBatches] at h
    have hlen : batchSize ≤ (a :: rest).length := by
      by_contra hc
      push_neg at hc
      exact hd (List.drop_eq_nil_of_le (Nat.le_of_lt hc))
    simp only [List.getD_cons_zero, List.length_take]
    exact Nat.min_eq_left hlen
  | a :: rest, k + 1, h => by
    rw [toBatches_eq_cons _ (List.cons_ne_nil a rest)] at h ⊢
    simp only [List.length_cons] at h
    simp only [List.getD_cons_succ]
    exact toBatches_getD_length ((a :: rest).drop batchSize) k (by omega)
termination_by l k => l.length
decreasing_by
  simp [batchSize, List.length_drop]
  omega

/-- Flattening the first `j` batches gives the first `batchSize * j`
input elements. -/
theorem toBatches_take_flatten {α : Type u} :
    ∀ (l : List α) (j : Nat),
      ((toBatches l).take j).flatten = l.take (batchSize * j)
  | [], j => by simp [toBatches]
  | a :: rest, 0 => by simp
  | a :: rest, j + 1 => by
    have ih := toBatches_take_flatten ((a :: rest).drop batchSize) j
    rw [toBatches_eq_cons _ (List.cons_ne_nil a rest), List.take_succ_cons,
      List.flatten_cons, ih]
    have e : batchSize * (j + 1) = batchSize + batchSize * j := by ring
    rw [e, List.take_add]
termination_by l j => l.length
decreasing_by
  simp [batchSize, List.length_drop]
  omega

/-- With the container present, the batch loop delivers after the `k`-th
batch the accumulator extended by the entities of the first `k + 1`
batches. -/
theorem processBatches_deliveries (env : FetchEnv) :
    ∀ (bs : List (List CatalogNode)) (acc : List DisplayEntity),
      (processBatches env true acc bs).deliveries
        = (List.range bs.length).map
            (fun k => acc ++ ((bs.take (k + 1)).flatten).map (mkEntity env))
  | [], acc => by simp [processBatches_nil]
  | b :: bs, acc => by
    have ih := processBatches_deliveries env bs (acc ++ b.map (mkEntity env))
    have h1 : (b :: bs).take 1 = [b] := rfl
    rw [processBatches_cons]
    simp [ih, List.range_succ_eq_map, List.map_map, Function.comp,
      h1, List.take_succ_cons, List.map_append, List.append_assoc]

/-- Claim C5: for every input node sequence the enricher partitions it
into consecutive batches that reassemble exactly to the input, each batch
non-empty with at most 20 nodes and every batch but the last exactly 20;
it processes the batches strictly in input order (the final result is the
in-order image of the input) and after the `k`-th batch delivers the
accumulated entities so far — the first `20 * (k + 1)` entities — each
delivery a prefix (hence superset) of the next.  For a 45-node input this
gives exactly 3 batches of sizes 20, 20 and 5 and the three incremental
deliveries: first 20 entities, first 40, all 45. -/
theorem C5_batches_and_incremental_delivery (env : FetchEnv)
    (nodes : List CatalogNode) :
    (toBatches nodes).flatten = nodes
      ∧ (∀ b ∈ toBatches nodes, b ≠ [] ∧ b.length ≤ batchSize)
      ∧ (∀ k, k + 1 < (toBatches nodes).length
          → ((toBatches nodes).getD k []).length = batchSize)
      ∧ (processCharacters env true nodes).processed = nodes.map (mkEntity env)
      ∧ (processCharacters env true nodes).deliveries
          = (List.range (toBatches nodes).length).map
              (fun k => (nodes.map (mkEntity env)).take (batchSize * (k + 1)))
      ∧ (∀ j k : Nat, j ≤ k →
          ∃ rest, (nodes.map (mkEntity env)).take (batchSize * k)
            = (nodes.map (mkEntity env)).take (batchSize * j) ++ rest)
      ∧ (nodes.length = 45 →
          toBatches nodes = [nodes.take 20, (nodes.drop 20).take 20, nodes.drop 40]
            ∧ (toBatches nodes).length = 3
            ∧ (nodes.take 20).length = 20
            ∧ ((nodes.drop 20).take 20).length = 20
            ∧ (nodes.drop 40).length = 5
            ∧ (processCharacters env true nodes).deliveries
                = [(nodes.map (mkEntity env)).take 20,
                   (nodes.map (mkEntity env)).take 40,
                   nodes.map (mkEntity env)]) := by
  have hdel : (processCharacters env true nodes).deliveries
      = (List.range (toBatches nodes).length).map
          (fun k => (nodes.map (mkEntity env)).take (batchSize * (k + 1))) := by
    rw [processCharacters, processBatches_deliveries]
    simp only [List.nil_append, toBatches_take_flatten, List.map_take]
  refine ⟨toBatches_join nodes, toBatches_mem_size nodes,
    toBatches_getD_length nodes, processCharacters_processed env true nodes,
    hdel, ?_, ?_⟩
  · intro j k hjk
    refine ⟨((nodes.map (mkEntity env)).drop (batchSize * j)).take
      (batchSize * k - batchSize * j), ?_⟩
    have e : batchSize * k = batchSize * j + (batchSize * k - batchSize * j) := by
      have := Nat.mul_le_mul_left batchSize hjk
      omega
    rw [e, List.take_add]
    have e2 : batchSize * j + (batchSize * k - batchSize * j) - batchSize * j
        = batchSize * k - batchSize * j := by omega
    rw [e2]
  · intro h45
    have hb := toBatches_length45 nodes h45
    refine ⟨hb, by rw [hb]; rfl, by simp [List.length_take, h45],
      by simp [List.length_take, List.length_drop, h45],
      by simp [List.length_drop, h45], ?_⟩
    rw [hdel, hb]
    have hr : List.range ([nodes.take 20, (nodes.drop 20).take 20,
        nodes.drop 40] : List (List CatalogNode)).length = [0, 1, 2] := rfl
    rw [hr]
    have h60 : (nodes.map (mkEntity env)).take 60 = nodes.map (mkEntity env) :=
      List.take_of_length_le (by simp [h45])
    simp [batchSize, h60]

/-- A 45-node input for the batching witness. -/
def nodes45 : List CatalogNode := List.replicate 45 ⟨"w/a", "n45", none, []⟩

/-- Witness for C5 at a concrete 45-node input, exercising the 45-node
part of the claim. -/
theorem C5_batches_and_incremental_delivery_witness :
    nodes45.length = 45
      ∧ (toBatches nodes45).flatten = nodes45
      ∧ (toBatches nodes45).length = 3
      ∧ (processCharacters envOneBad true nodes45).deliveries
          = [(nodes45.map (mkEntity envOneBad)).take 20,
             (nodes45.map (mkEntity envOneBad)).take 40,
             nodes45.map (mkEntity envOneBad)] :=
  ⟨by decide,
   (C5_batches_and_incremental_delivery envOneBad nodes45).1,
   ((C5_batches_and_incremental_delivery envOneBad nodes45).2.2.2.2.2.2
      (by decide)).2.1,
   ((C5_batches_and_incremental_delivery envOneBad nodes45).2.2.2.2.2.2
      (by decide)).2.2.2.2.2⟩

end ChubSearch

